import Mathlib

/-!
Shallow embedding of the `opt` Go package (`src/opt.go`): a generic
`Option[T]` container with JSON marshal/unmarshal hooks and nil-safe
accessors. The host JSON encoder/decoder (Go's `encoding/json`) is an
external collaborator; it is modelled abstractly as a `HostCodec` whose
`unmarshal` is state-passing, because `json.Unmarshal(data, &o.value)`
writes into its target even when it returns an error (encoding/json
documents best-effort decoding on type errors). Concrete codecs for
`[]int` and `*int` instantiate the model where concrete inputs are needed.
-/

/-- Model of Go's `error` result: `nil`, or a non-nil error value. -/
inductive GoErr where
  | nil
  | fail (msg : String)
deriving DecidableEq, Repr

/-- Model of Go's `[]byte` JSON text. -/
abbrev Bytes := String

/-- Maps a decimal digit value to its character (48 is the code of `0`). -/
def digitChar (n : Nat) : Char :=
  Char.ofNat (48 + n % 10)

/-- Maps a decimal digit character to its value; other characters give
nothing (48 and 57 are the codes of `0` and `9`). -/
def digitVal (c : Char) : Option Nat :=
  if 48 ≤ c.toNat ∧ c.toNat ≤ 57 then some (c.toNat - 48) else none

/-- Renders a positive natural as decimal digits (fuel-driven so that it
reduces in the kernel); `fuel` bounds the number of digits. -/
def natCharsAux : Nat → Nat → List Char → List Char
  | 0, _, acc => acc
  | fuel + 1, n, acc =>
    if n = 0 then acc
    else natCharsAux fuel (n / 10) (digitChar (n % 10) :: acc)

/-- Renders a natural number as decimal digits. -/
def natChars (n : Nat) : List Char :=
  if n = 0 then ['0'] else natCharsAux (n + 1) n []

/-- Renders an integer as decimal text. -/
def intChars (n : Int) : List Char :=
  if n < 0 then '-' :: natChars n.natAbs else natChars n.natAbs

/-- Parses decimal digits into a natural number. -/
def parseNatAux : List Char → Nat → Option Nat
  | [], acc => some acc
  | c :: cs, acc =>
    match digitVal c with
    | some d => parseNatAux cs (acc * 10 + d)
    | none => none

/-- Parses an optionally signed decimal literal. -/
def parseInt (s : List Char) : Option Int :=
  match s with
  | [] => none
  | '-' :: rest =>
    if rest = [] then none
    else (parseNatAux rest 0).map (fun n => -(n : Int))
  | _ => (parseNatAux s 0).map (fun n => (n : Int))

/-- Strips leading and trailing spaces. -/
def trimChars (s : List Char) : List Char :=
  ((s.dropWhile (· = ' ')).reverse.dropWhile (· = ' ')).reverse

/-- Splits a character list on commas (top level only; the concrete
inputs used here are flat arrays). -/
def splitComma : List Char → List (List Char)
  | [] => [[]]
  | ',' :: rest => [] :: splitComma rest
  | c :: rest =>
    match splitComma rest with
    | [] => [[c]]
    | p :: ps => (c :: p) :: ps

namespace opt

/-- Embeds `var nullBytes = []byte("null")` from `src/opt.go`. -/
def nullBytes : Bytes := "null"

/-- Embeds `type Option[T any] struct { value T; exists bool }`; the Go
field `exists` is rendered `exists'` because `exists` is reserved here. -/
structure Option (T : Type) where
  value : T
  exists' : Bool
deriving Repr

/-- Model of the host JSON encoder/decoder for a type T (Go's
`encoding/json`, an external collaborator of this package).
`marshal v` models `json.Marshal(v)`, returning the data and the error.
`unmarshal data cur` models `json.Unmarshal(data, &cur)`: it returns the
(possibly partially) updated target together with the returned error,
because Go's Unmarshal writes into its target even on type errors. -/
structure HostCodec (T : Type) where
  marshal : T → Bytes × GoErr
  unmarshal : Bytes → T → T × GoErr

variable {T : Type}

/-- Embeds `func (o Option[T]) MarshalJSON() (data []byte, err error)`:
if `o.exists'`, delegate to `json.Marshal(o.value)`; else return `nullBytes`
with a nil error. -/
def MarshalJSON (c : HostCodec T) (o : Option T) : Bytes × GoErr :=
  if o.exists' then c.marshal o.value
  else (nullBytes, GoErr.nil)

/-- Embeds `func (o *Option[T]) UnmarshalJSON(data []byte) (err error)`.
Go mutates the receiver; here the new receiver state is returned with the
error. If `data` equals `nullBytes` (the `reflect.DeepEqual` check),
return nil without touching the state. Otherwise run
`json.Unmarshal(data, &o.value)`: on error, return it (the value field
keeps whatever the host decoder left in it); on success, set
`exists' = true`. -/
def UnmarshalJSON (c : HostCodec T) (o : Option T) (data : Bytes) :
    Option T × GoErr :=
  if data = nullBytes then (o, GoErr.nil)
  else
    let r := c.unmarshal data o.value
    if r.snd ≠ GoErr.nil then ({ o with value := r.fst }, r.snd)
    else ({ value := r.fst, exists' := true }, GoErr.nil)

/-- Model of a Go pointer `*Option[T]`: nil, or pointing at a container. -/
inductive Ref (T : Type) where
  | nil
  | ptr (o : Option T)

/-- Embeds `func (o *Option[T]) Exists() (exists bool)`: false on a nil
receiver, else the `exists` field. -/
def Exists (o : Ref T) : Bool :=
  match o with
  | .nil => false
  | .ptr o => o.exists'

/-- Embeds `func (o *Option[T]) Get() (value T)`: the named return starts
at the zero value of T (modelled by `Inhabited.default`); it is returned
as-is when the receiver is nil or the value is not provided. -/
def Get [Inhabited T] (o : Ref T) : T :=
  match o with
  | .nil => default
  | .ptr o => if o.exists' then o.value else default

/-- Embeds `func (o *Option[T]) GetWithDefault(defaultValue T) (value T)`:
returns `defaultValue` when the receiver is nil or the value is not
provided, else the held value. -/
def GetWithDefault (o : Ref T) (defaultValue : T) : T :=
  match o with
  | .nil => defaultValue
  | .ptr o => if o.exists' then o.value else defaultValue

/-- The Go zero value of `Option[T]` (the state of a container whose
Decode was never invoked): zero value of T, `exists' = false`. -/
def zeroOption (T : Type) [Inhabited T] : Option T :=
  { value := default, exists' := false }

/-- Sequential application of `UnmarshalJSON` calls, keeping only the
state (a caller that continues despite returned errors). -/
def decodeAll (c : HostCodec T) (o : Option T) : List Bytes → Option T
  | [] => o
  | d :: ds => decodeAll c (UnmarshalJSON c o d).fst ds

/-- States reachable from the zero container through `UnmarshalJSON`
calls that all returned a nil error. -/
inductive ReachOk [Inhabited T] (c : HostCodec T) : Option T → Prop where
  | init : ReachOk c (zeroOption T)
  | step (o : Option T) (data : Bytes) (h : ReachOk c o)
      (hok : (UnmarshalJSON c o data).snd = GoErr.nil) :
      ReachOk c (UnmarshalJSON c o data).fst

/-- Decodes one array element, modelling encoding/json on an int element
of a `[]int` target: a decimal literal is stored; any other element is a
type error that leaves the zero int in its slot and is reported
(encoding/json decodes best-effort and returns the earliest type error). -/
def parseIntElem (s : List Char) : Int × GoErr :=
  match parseInt (trimChars s) with
  | some n => (n, GoErr.nil)
  | none =>
    (0, GoErr.fail ("json: cannot unmarshal " ++ String.mk (trimChars s) ++ " into int"))

/-- First non-nil error of a list of results, modelling encoding/json
returning the earliest type error of a best-effort decode. -/
def firstErr : List GoErr → GoErr
  | [] => GoErr.nil
  | GoErr.nil :: rest => firstErr rest
  | GoErr.fail e :: _ => GoErr.fail e

/-- Concrete host codec modelling encoding/json for Go's `[]int` on flat
arrays of decimal literals: marshal produces `[e1,...,en]`; unmarshal of a
bracketed input decodes the comma-separated elements best-effort (bad
elements become 0 and the earliest element error is returned — the target
still receives the partially decoded slice); unmarshal of a non-array
input is a type error that leaves the target untouched. -/
def intListCodec : HostCodec (List Int) where
  marshal v :=
    (String.mk ('[' :: List.intercalate [','] (v.map intChars) ++ [']']), GoErr.nil)
  unmarshal data cur :=
    let cs := trimChars data.data
    if cs.head? = some '[' ∧ cs.getLast? = some ']' then
      let inner := trimChars (cs.drop 1).dropLast
      if inner = [] then ([], GoErr.nil)
      else
        let parts := splitComma inner
        (parts.map (fun s => (parseIntElem s).fst),
         firstErr (parts.map (fun s => (parseIntElem s).snd)))
    else (cur, GoErr.fail ("json: cannot unmarshal " ++ data ++ " into []int"))

/-- Model of Go's `*int`: a nil pointer or a pointed-to integer. The Go
zero value of `*int` is nil. -/
inductive PtrInt where
  | null
  | val (n : Int)
deriving DecidableEq, Repr

instance : Inhabited PtrInt := ⟨PtrInt.null⟩

/-- Concrete host codec modelling encoding/json for Go's `*int`:
marshal of nil is the `null` literal, marshal of a pointed-to n is its
decimal text; unmarshal of `null` sets the pointer to nil (documented
encoding/json behavior for pointers), unmarshal of a decimal literal sets
it to that value, and anything else is an error leaving the target
untouched. -/
def ptrIntCodec : HostCodec PtrInt where
  marshal v :=
    match v with
    | .null => (nullBytes, GoErr.nil)
    | .val n => (String.mk (intChars n), GoErr.nil)
  unmarshal data cur :=
    if data = "null" then (PtrInt.null, GoErr.nil)
    else
      match parseInt data.data with
      | some n => (PtrInt.val n, GoErr.nil)
      | none => (cur, GoErr.fail ("json: cannot unmarshal " ++ data ++ " into *int"))

/-- Concrete host codec modelling encoding/json for Go's `chan int` (a
type the host encoder always rejects): marshal returns an unsupported-type
error, unmarshal a type error leaving the target untouched. -/
def chanIntCodec : HostCodec Unit where
  marshal _ := ("", GoErr.fail "json: unsupported type: chan int")
  unmarshal _ cur := (cur, GoErr.fail "json: cannot unmarshal into chan int")

/-- Decoding the null literal returns nil and leaves the state untouched. -/
theorem UnmarshalJSON_nullBytes (c : HostCodec T) (o : Option T) :
    UnmarshalJSON c o nullBytes = (o, GoErr.nil) := by
  simp [UnmarshalJSON]

/-- A single `UnmarshalJSON` call never clears the `exists` flag. -/
theorem UnmarshalJSON_exists_mono (c : HostCodec T) (o : Option T) (data : Bytes)
    (h : o.exists' = true) : (UnmarshalJSON c o data).fst.exists' = true := by
  unfold UnmarshalJSON
  by_cases hd : data = nullBytes
  · simp [hd, h]
  · by_cases he : (c.unmarshal data o.value).snd = GoErr.nil <;> simp [hd, he, h]

/-- When `UnmarshalJSON` returns an error, the `exists` flag is whatever it
was before the call (the error path only touches the value field). -/
theorem UnmarshalJSON_fail_exists (c : HostCodec T) (o : Option T) (data : Bytes)
    (e : String) (h : (UnmarshalJSON c o data).snd = GoErr.fail e) :
    (UnmarshalJSON c o data).fst.exists' = o.exists' := by
  unfold UnmarshalJSON at h ⊢
  by_cases hd : data = nullBytes
  · simp [hd] at h
  · by_cases he : (c.unmarshal data o.value).snd = GoErr.nil <;> simp [hd, he] at h ⊢

/-- C5: MarshalJSON on a not-present container produces exactly the `null`
literal with a nil error, and on a present container it returns exactly
what the host encoder returns for the held value — data and error passed
through unchanged, so the container never originates an encode error. -/
theorem marshal_delegates_or_null (c : HostCodec T) (o : Option T)
    (b : Bytes) (e : GoErr) :
    (o.exists' = false → MarshalJSON c o = (nullBytes, GoErr.nil))
    ∧ (o.exists' = true → c.marshal o.value = (b, e) → MarshalJSON c o = (b, e)) := by
  constructor
  · intro h; simp [MarshalJSON, h]
  · intro h hm; simp [MarshalJSON, h, hm]

/-- Witness for C5: a not-present `[]int` container encodes to `null`; a
present one holding `[1,2]` encodes to `[1,2]`; a present `chan int`
container surfaces the host encoder's error unchanged. -/
theorem marshal_delegates_or_null_witness :
    MarshalJSON intListCodec (zeroOption (List Int)) = (nullBytes, GoErr.nil)
    ∧ MarshalJSON intListCodec { value := [1, 2], exists' := true } = ("[1,2]", GoErr.nil)
    ∧ MarshalJSON chanIntCodec { value := (), exists' := true }
        = ("", GoErr.fail "json: unsupported type: chan int") :=
  ⟨(marshal_delegates_or_null intListCodec (zeroOption (List Int)) "" GoErr.nil).1 (by decide),
   (marshal_delegates_or_null intListCodec { value := [1, 2], exists' := true }
      "[1,2]" GoErr.nil).2 (by decide) (by decide),
   (marshal_delegates_or_null chanIntCodec { value := (), exists' := true }
      "" (GoErr.fail "json: unsupported type: chan int")).2 (by decide) (by decide)⟩

/-- C6: a zero-value container (Decode never invoked, the field's key was
absent) is observationally identical — for Exists, Get, and GetWithDefault
with any fallback — to a container decoded from the explicit `null`
literal, and that decode reports success. -/
theorem zero_container_equiv_null_decoded [Inhabited T] (c : HostCodec T) (d : T) :
    (UnmarshalJSON c (zeroOption T) nullBytes).snd = GoErr.nil
    ∧ Exists (Ref.ptr (UnmarshalJSON c (zeroOption T) nullBytes).fst)
        = Exists (Ref.ptr (zeroOption T))
    ∧ Get (Ref.ptr (UnmarshalJSON c (zeroOption T) nullBytes).fst)
        = Get (Ref.ptr (zeroOption T))
    ∧ GetWithDefault (Ref.ptr (UnmarshalJSON c (zeroOption T) nullBytes).fst) d
        = GetWithDefault (Ref.ptr (zeroOption T)) d := by
  simp [UnmarshalJSON]

/-- C7: GetWithDefault returns the fallback exactly when Exists is false,
and the held value exactly when Exists is true; it is total. -/
theorem getWithDefault_fallback_iff (r : Ref T) (d : T) :
    (Exists r = false → GetWithDefault r d = d)
    ∧ (∀ o : Option T, r = Ref.ptr o → Exists r = true → GetWithDefault r d = o.value) := by
  constructor
  · intro h
    cases r with
    | nil => rfl
    | ptr o => simp [Exists] at h; simp [GetWithDefault, h]
  · intro o hr h
    subst hr
    simp [Exists] at h
    simp [GetWithDefault, h]

/-- Witness for C7: with fallback `[7]`, a not-present container yields
`[7]` and a present container holding `[9]` yields `[9]`. -/
theorem getWithDefault_fallback_iff_witness :
    GetWithDefault (Ref.ptr { value := ([9] : List Int), exists' := false }) [7] = [7]
    ∧ GetWithDefault (Ref.ptr { value := ([9] : List Int), exists' := true }) [7] = [9] :=
  ⟨(getWithDefault_fallback_iff (Ref.ptr { value := ([9] : List Int), exists' := false })
      [7]).1 (by decide),
   (getWithDefault_fallback_iff (Ref.ptr { value := ([9] : List Int), exists' := true })
      [7]).2 { value := [9], exists' := true } rfl (by decide)⟩

/-- C8: the three accessors are total on a nil receiver — Exists gives
false, Get gives the zero value, GetWithDefault gives the fallback — and
each agrees with a non-nil not-present container holding any value. -/
theorem nil_receiver_accessors_safe [Inhabited T] (d v : T) :
    Exists (Ref.nil : Ref T) = false
    ∧ Get (Ref.nil : Ref T) = (default : T)
    ∧ GetWithDefault (Ref.nil : Ref T) d = d
    ∧ Exists (Ref.ptr { value := v, exists' := false }) = Exists (Ref.nil : Ref T)
    ∧ Get (Ref.ptr { value := v, exists' := false }) = Get (Ref.nil : Ref T)
    ∧ GetWithDefault (Ref.ptr { value := v, exists' := false }) d
        = GetWithDefault (Ref.nil : Ref T) d := by
  simp [Exists, Get, GetWithDefault]

/-- C9: the exists flag is monotone — once a container is present, no
sequence of further UnmarshalJSON calls (null literal, malformed input, or
new valid values) ever clears it. -/
theorem exists_flag_monotone (c : HostCodec T) (o : Option T) (ds : List Bytes)
    (h : o.exists' = true) : (decodeAll c o ds).exists' = true := by
  induction ds generalizing o with
  | nil => exact h
  | cons d ds ih => exact ih _ (UnmarshalJSON_exists_mono c o d h)

/-- Witness for C9: a present container stays present through a null
decode, a syntactically bad decode, a type-error decode, and a fresh
successful decode. -/
theorem exists_flag_monotone_witness :
    (decodeAll intListCodec { value := ([5] : List Int), exists' := true }
      ["null", "oops", "[1,\"a\"]", "[2]"]).exists' = true :=
  exists_flag_monotone intListCodec { value := [5], exists' := true }
    ["null", "oops", "[1,\"a\"]", "[2]"] (by decide)

/-- C10: after any failing UnmarshalJSON call on a fresh container, the
partially written value is unobservable: Get returns the zero value and
GetWithDefault returns the fallback, because both guard on the exists
flag, which the failing call left false. -/
theorem failed_fresh_decode_unobservable [Inhabited T] (c : HostCodec T)
    (data : Bytes) (d : T) (e : String)
    (h : (UnmarshalJSON c (zeroOption T) data).snd = GoErr.fail e) :
    (UnmarshalJSON c (zeroOption T) data).fst.exists' = false
    ∧ Get (Ref.ptr (UnmarshalJSON c (zeroOption T) data).fst) = (default : T)
    ∧ GetWithDefault (Ref.ptr (UnmarshalJSON c (zeroOption T) data).fst) d = d := by
  have hx : (UnmarshalJSON c (zeroOption T) data).fst.exists' = false :=
    (UnmarshalJSON_fail_exists c (zeroOption T) data e h).trans rfl
  exact ⟨hx, by simp [Get, hx], by simp [GetWithDefault, hx]⟩

/-- Witness for C10: decoding the malformed input `oops` into a fresh
`[]int` container fails; Get then returns `[]` and GetWithDefault `[7]`
returns `[7]`. -/
theorem failed_fresh_decode_unobservable_witness :
    (UnmarshalJSON intListCodec (zeroOption (List Int)) "oops").fst.exists' = false
    ∧ Get (Ref.ptr (UnmarshalJSON intListCodec (zeroOption (List Int)) "oops").fst)
        = (default : List Int)
    ∧ GetWithDefault (Ref.ptr (UnmarshalJSON intListCodec (zeroOption (List Int)) "oops").fst)
        [7] = [7] :=
  failed_fresh_decode_unobservable intListCodec "oops" [7]
    "json: cannot unmarshal oops into []int" (by decide)

/-- Counterexample to C1: decode `[1,2,3]` successfully into a fresh
`[]int` container, then decode the type-error input `[1,"a"]` into the
same instance: the second call returns an error, yet Exists is still true
afterwards (the value field meanwhile holds the partial result `[1,0]`) —
the claimed `Exists() == false` after a failing decode does not hold for
an instance that previously completed a successful decode. -/
theorem failed_decode_after_success_still_present :
    (UnmarshalJSON intListCodec
        ((UnmarshalJSON intListCodec (zeroOption (List Int)) "[1,2,3]").fst)
        "[1,\"a\"]").snd ≠ GoErr.nil
    ∧ Exists (Ref.ptr (UnmarshalJSON intListCodec
        ((UnmarshalJSON intListCodec (zeroOption (List Int)) "[1,2,3]").fst)
        "[1,\"a\"]").fst) = true
    ∧ (UnmarshalJSON intListCodec
        ((UnmarshalJSON intListCodec (zeroOption (List Int)) "[1,2,3]").fst)
        "[1,\"a\"]").fst.value = [1, 0] := by
  decide

/-- C1 as amended: when Decode fails on a container that was not already
present, the host decoder's error is returned to the caller unchanged and
the container satisfies `Exists() == false` afterwards; a container made
present by an earlier successful decode, however, keeps `Exists() == true`
through a later failing decode. -/
theorem failed_decode_error_returned_not_present (c : HostCodec T) (o : Option T)
    (data : Bytes) (v : T) (e : String)
    (h0 : o.exists' = false) (hd : data ≠ nullBytes)
    (hu : c.unmarshal data o.value = (v, GoErr.fail e)) :
    (UnmarshalJSON c o data).snd = GoErr.fail e
    ∧ Exists (Ref.ptr (UnmarshalJSON c o data).fst) = false := by
  unfold UnmarshalJSON
  simp [hd, hu, Exists, h0]

/-- Witness for the amended C1: decoding `oops` into a fresh `[]int`
container returns the host decoder's error and leaves Exists false. -/
theorem failed_decode_error_returned_not_present_witness :
    (UnmarshalJSON intListCodec (zeroOption (List Int)) "oops").snd
      = GoErr.fail "json: cannot unmarshal oops into []int"
    ∧ Exists (Ref.ptr (UnmarshalJSON intListCodec (zeroOption (List Int)) "oops").fst)
      = false :=
  failed_decode_error_returned_not_present intListCodec (zeroOption (List Int))
    "oops" [] "json: cannot unmarshal oops into []int" (by decide) (by decide) (by decide)

/-- Counterexample to C2: decoding the type-error input `[1,"a"]` into a
fresh `[]int` container leaves `present == false` while the value field
holds the partially written slice `[1,0]`, not the zero value `[]` — the
code decodes straight into the value field, not into a temporary. -/
theorem failed_decode_partial_value_not_zero :
    (UnmarshalJSON intListCodec (zeroOption (List Int)) "[1,\"a\"]").fst.exists' = false
    ∧ (UnmarshalJSON intListCodec (zeroOption (List Int)) "[1,\"a\"]").fst.value = [1, 0]
    ∧ (UnmarshalJSON intListCodec (zeroOption (List Int)) "[1,\"a\"]").fst.value
        ≠ (default : List Int) := by
  decide

/-- C2 as amended: in every state reachable from the zero container
through UnmarshalJSON calls that all returned success, `present == false`
implies the value field is the zero value of T; only a failing decode can
leave partially written data there (and it stays unobservable through the
accessors). -/
theorem not_present_zero_value_when_decodes_succeed [Inhabited T]
    {c : HostCodec T} {s : Option T}
    (h : ReachOk c s) (hp : s.exists' = false) : s.value = default := by
  revert hp
  induction h with
  | init => intro _; rfl
  | step o data hprev hok ih =>
    intro hp
    unfold UnmarshalJSON at hp hok ⊢
    by_cases hd : data = nullBytes
    · simp [hd] at hp ⊢
      exact ih hp
    · by_cases he : (c.unmarshal data o.value).snd = GoErr.nil
      · simp [hd, he] at hp
      · simp [hd, he] at hok

/-- Witness for the amended C2: the state reached by decoding `null` into
a fresh `[]int` container is not present and its value field is `[]`. -/
theorem not_present_zero_value_when_decodes_succeed_witness :
    (UnmarshalJSON intListCodec (zeroOption (List Int)) "null").fst.value
      = (default : List Int) :=
  not_present_zero_value_when_decodes_succeed
    (ReachOk.step (zeroOption (List Int)) "null" ReachOk.init (by decide)) (by decide)

/-- Counterexample to C3: for T modelling Go's `*int`, the `null` literal
is a valid encoding of a value of T (the nil pointer: the host decoder
accepts it) and is exactly what a present container holding that value
encodes to; yet decoding it into a fresh container yields
`Exists() == false`, not the claimed present container holding the value. -/
theorem null_valued_roundtrip_loses_presence :
    ptrIntCodec.unmarshal nullBytes (default : PtrInt) = (PtrInt.null, GoErr.nil)
    ∧ MarshalJSON ptrIntCodec { value := PtrInt.null, exists' := true }
        = (nullBytes, GoErr.nil)
    ∧ (UnmarshalJSON ptrIntCodec (zeroOption PtrInt) nullBytes).snd = GoErr.nil
    ∧ Exists (Ref.ptr (UnmarshalJSON ptrIntCodec (zeroOption PtrInt) nullBytes).fst)
        = false := by
  decide

/-- C3 as amended: the round-trip holds whenever the host encoding of the
held value is not the `null` literal — encoding a present container and
decoding the bytes into a fresh container yields a present container
holding an equal value — and encoding an absent container yields the
`null` literal, which decodes back to an absent container. -/
theorem roundtrip_present_nonnull_and_absent [Inhabited T] (c : HostCodec T)
    (v : T) (b : Bytes)
    (hm : c.marshal v = (b, GoErr.nil))
    (hb : b ≠ nullBytes)
    (hu : c.unmarshal b (default : T) = (v, GoErr.nil)) :
    MarshalJSON c { value := v, exists' := true } = (b, GoErr.nil)
    ∧ (UnmarshalJSON c (zeroOption T) b).snd = GoErr.nil
    ∧ Exists (Ref.ptr (UnmarshalJSON c (zeroOption T) b).fst) = true
    ∧ Get (Ref.ptr (UnmarshalJSON c (zeroOption T) b).fst) = v
    ∧ MarshalJSON c (zeroOption T) = (nullBytes, GoErr.nil)
    ∧ UnmarshalJSON c (zeroOption T) nullBytes = (zeroOption T, GoErr.nil) := by
  refine ⟨by simp [MarshalJSON, hm], ?_, ?_, ?_, by simp [MarshalJSON, zeroOption],
    UnmarshalJSON_nullBytes c (zeroOption T)⟩
  all_goals unfold UnmarshalJSON
  all_goals simp [hb, zeroOption, hu, Exists, Get]

/-- Witness for the amended C3: `[1,2,3]` round-trips through a `[]int`
container — encode gives `[1,2,3]`, decoding that into a fresh container
is present with value `[1,2,3]`, and the absent round-trip gives `null`
back to an absent container. -/
theorem roundtrip_present_nonnull_and_absent_witness :
    MarshalJSON intListCodec { value := ([1, 2, 3] : List Int), exists' := true }
      = ("[1,2,3]", GoErr.nil)
    ∧ (UnmarshalJSON intListCodec (zeroOption (List Int)) "[1,2,3]").snd = GoErr.nil
    ∧ Exists (Ref.ptr (UnmarshalJSON intListCodec (zeroOption (List Int)) "[1,2,3]").fst)
        = true
    ∧ Get (Ref.ptr (UnmarshalJSON intListCodec (zeroOption (List Int)) "[1,2,3]").fst)
        = [1, 2, 3]
    ∧ MarshalJSON intListCodec (zeroOption (List Int)) = (nullBytes, GoErr.nil)
    ∧ UnmarshalJSON intListCodec (zeroOption (List Int)) nullBytes
        = (zeroOption (List Int), GoErr.nil) :=
  roundtrip_present_nonnull_and_absent intListCodec [1, 2, 3] "[1,2,3]"
    (by decide) (by decide) (by decide)

/-- Counterexample to C4: decoding the `null` literal into a container
that an earlier successful decode made present returns success but leaves
`Exists() == true` and the old value in place — not the claimed
not-present state, because the null branch returns without touching the
receiver. -/
theorem null_decode_on_present_instance_stays_present :
    (UnmarshalJSON intListCodec
        ((UnmarshalJSON intListCodec (zeroOption (List Int)) "[5]").fst) "null").snd
      = GoErr.nil
    ∧ Exists (Ref.ptr (UnmarshalJSON intListCodec
        ((UnmarshalJSON intListCodec (zeroOption (List Int)) "[5]").fst) "null").fst)
      = true
    ∧ Get (Ref.ptr (UnmarshalJSON intListCodec
        ((UnmarshalJSON intListCodec (zeroOption (List Int)) "[5]").fst) "null").fst)
      = [5] := by
  decide

/-- C4 as amended: decoding the exact `null` literal into a container that
is not already present returns success and leaves it not present, with
Exists false and Get the zero value of T; on an already-present container
the call still succeeds but the state keeps its old present value. -/
theorem null_decode_fresh_not_present [Inhabited T] (c : HostCodec T) (o : Option T)
    (h0 : o.exists' = false) :
    (UnmarshalJSON c o nullBytes).snd = GoErr.nil
    ∧ Exists (Ref.ptr (UnmarshalJSON c o nullBytes).fst) = false
    ∧ Get (Ref.ptr (UnmarshalJSON c o nullBytes).fst) = (default : T) := by
  simp [UnmarshalJSON, Exists, Get, h0]

/-- Witness for the amended C4: decoding `null` into a fresh `[]int`
container succeeds, leaves Exists false, and Get returns `[]`. -/
theorem null_decode_fresh_not_present_witness :
    (UnmarshalJSON intListCodec (zeroOption (List Int)) nullBytes).snd = GoErr.nil
    ∧ Exists (Ref.ptr (UnmarshalJSON intListCodec (zeroOption (List Int)) nullBytes).fst)
        = false
    ∧ Get (Ref.ptr (UnmarshalJSON intListCodec (zeroOption (List Int)) nullBytes).fst)
        = (default : List Int) :=
  null_decode_fresh_not_present intListCodec (zeroOption (List Int)) (by decide)

end opt
